import Mathlib

/-!
Verification of the interactive annotation surface
(`src/components/InteractiveImageDisplay.tsx`, duplicated at
`src/src/components/InteractiveImageDisplay.tsx`; the two copies contain the
same logic).

The component's React state is embedded as a `Session` record; each event
handler becomes a pure function from the session (plus the event data it
reads) to the updated session together with the value, if any, passed to the
`onSelectionChange` observer.  JavaScript numbers are modelled as rationals.
-/

namespace AnnotationSurface

/-- A decoded image (`HTMLImageElement` after a successful decode): an identity
plus natural dimensions.  The `id` distinguishes images decoded from distinct
sources. -/
structure Image where
  id : Nat
  naturalWidth : ℚ
  naturalHeight : ℚ
deriving DecidableEq, Repr

/-- `type Point = { x: number; y: number }` — canvas-local coordinates. -/
structure Point where
  x : ℚ
  y : ℚ
deriving DecidableEq, Repr

/-- `type Path = Point[]` — a single continuous stroke. -/
abbrev Path := List Point

/-- The component's React state:
`image`, `drawingPaths`, `isDrawing`, `currentPath`
(the four `useState` hooks of `InteractiveImageDisplay`). -/
structure Session where
  image : Option Image
  drawingPaths : List Path
  isDrawing : Bool
  currentPath : Path
deriving DecidableEq, Repr

/-- The initial state of the four `useState` hooks:
`useState(null)`, `useState([])`, `useState(false)`, `useState([])`. -/
def initialSession : Session :=
  { image := none, drawingPaths := [], isDrawing := false, currentPath := [] }

/-! ### ScaleCalculator

From the draw effect:
`scaleX = maxDisplayWidth / image.naturalWidth`,
`scaleY = maxDisplayHeight / image.naturalHeight`,
`scale = Math.min(scaleX, scaleY, 1)`,
`displayWidth = image.naturalWidth * scale`,
`displayHeight = image.naturalHeight * scale`. -/

/-- `const scale = Math.min(scaleX, scaleY, 1)` with
`scaleX = maxDisplayWidth / naturalWidth` and
`scaleY = maxDisplayHeight / naturalHeight`. -/
def computeScale (naturalWidth naturalHeight maxDisplayWidth maxDisplayHeight : ℚ) : ℚ :=
  min (min (maxDisplayWidth / naturalWidth) (maxDisplayHeight / naturalHeight)) 1

/-- `const displayWidth = image.naturalWidth * scale`. -/
def displayWidth (naturalWidth naturalHeight maxDisplayWidth maxDisplayHeight : ℚ) : ℚ :=
  naturalWidth * computeScale naturalWidth naturalHeight maxDisplayWidth maxDisplayHeight

/-- `const displayHeight = image.naturalHeight * scale`. -/
def displayHeight (naturalWidth naturalHeight maxDisplayWidth maxDisplayHeight : ℚ) : ℚ :=
  naturalHeight * computeScale naturalWidth naturalHeight maxDisplayWidth maxDisplayHeight

/-! ### Image-load effect callbacks

From the `useEffect` on `[imageFile, onSelectionChange]`: the `img.onload`
callback runs `setImage(img); setDrawingPaths([]); onSelectionChange(false)`,
and the `img.onerror` callback runs `console.error(...); setImage(null);
setDrawingPaths([]); onSelectionChange(false)`.  Neither callback touches
`currentPath` or `isDrawing`. -/

/-- `img.onload`: install the decoded image, clear the committed paths and
notify the selection observer with `false`.  The returned `Bool` is the value
passed to `onSelectionChange`. -/
def imgOnLoad (img : Image) (s : Session) : Session × Bool :=
  ({ s with image := some img, drawingPaths := [] }, false)

/-- The string passed to `console.error` by `img.onerror`; this log call is the
component's only decode-failure signal (there is no error callback prop). -/
def decodeErrorMessage : String := "Error loading image source."

/-- Output of the `img.onerror` callback: the updated session, the value passed
to `onSelectionChange`, and the decode-error message emitted via
`console.error`. -/
structure LoadFailureOut where
  session : Session
  selectionNotified : Bool
  errorReport : String
deriving DecidableEq, Repr

/-- `img.onerror`: log the decode error, set the image to `null`, clear the
committed paths and notify the selection observer with `false`. -/
def imgOnError (s : Session) : LoadFailureOut :=
  { session := { s with image := none, drawingPaths := [] }
    selectionNotified := false
    errorReport := decodeErrorMessage }

/-! ### Pointer handlers (StrokeRecorder) -/

/-- `handleInteractionStart`: guarded by image present and, for mouse events,
`button === 0`; then `setIsDrawing(true); setCurrentPath([pos])`.
`isMouseEvent` is `event.nativeEvent instanceof MouseEvent`; `button` is the
mouse button number (ignored for touch events). -/
def handleInteractionStart (s : Session) (isMouseEvent : Bool) (button : Nat)
    (pos : Point) : Session :=
  if s.image = none ∨ (isMouseEvent = true ∧ button ≠ 0) then s
  else { s with isDrawing := true, currentPath := [pos] }

/-- `handleInteractionMove`: ignored unless drawing with an image; otherwise
appends the position to `currentPath`. -/
def handleInteractionMove (s : Session) (pos : Point) : Session :=
  if s.isDrawing = false ∨ s.image = none then s
  else { s with currentPath := s.currentPath ++ [pos] }

/-- `handleInteractionEnd`: ignored unless drawing with an image; otherwise
`setIsDrawing(false)`; if `currentPath.length > 1` commit
`[...drawingPaths, currentPath]` and call
`onSelectionChange(newPaths.length > 0)`; in either branch
`setCurrentPath([])`.  The second component is the value, if any, passed to
`onSelectionChange`. -/
def handleInteractionEnd (s : Session) : Session × Option Bool :=
  if s.isDrawing = false ∨ s.image = none then (s, none)
  else
    if 1 < s.currentPath.length then
      let newPaths := s.drawingPaths ++ [s.currentPath]
      ({ s with isDrawing := false, drawingPaths := newPaths, currentPath := [] },
        some (decide (0 < newPaths.length)))
    else
      ({ s with isDrawing := false, currentPath := [] }, none)

/-- `clearSelection` (imperative handle): `setDrawingPaths([]);
setCurrentPath([]); setIsDrawing(false); onSelectionChange(false)`.  The
second component is the value passed to `onSelectionChange`. -/
def clearSelection (s : Session) : Session × Bool :=
  ({ s with drawingPaths := [], currentPath := [], isDrawing := false }, false)

/-- The display scale the session's image induces for given bounds, when an
image is present (observer used to state that clearing strokes does not change
the derived scale). -/
def sessionScale (s : Session) (maxDisplayWidth maxDisplayHeight : ℚ) : Option ℚ :=
  s.image.map fun img =>
    computeScale img.naturalWidth img.naturalHeight maxDisplayWidth maxDisplayHeight

/-! ### Renderer (the draw `useEffect`)

The canvas is modelled as its dimensions plus the list of 2D-context drawing
operations performed on it since its backing store was last cleared by a
dimension assignment.  Assigning `canvas.width`/`canvas.height` clears the
canvas, so it is modelled as resetting the operation list. -/

/-- A 2D-context drawing operation performed by the draw effect.  Stroke
styling (`strokeStyle`, `lineWidth`, `lineCap`, `lineJoin`) is fixed by the
source to constants, so a polyline stroke is recorded as the polyline alone. -/
inductive DrawOp where
  | clearRect (x y w h : ℚ)
  | fillRect (x y w h : ℚ) (style : String)
  | fillText (text : String) (x y : ℚ)
  | drawImage (img : Image) (x y w h : ℚ)
  | strokePolyline (p : Path)
deriving DecidableEq, Repr

/-- The canvas element: current dimensions and the drawing operations applied
since the backing store was last reset. -/
structure Canvas where
  width : ℚ
  height : ℚ
  ops : List DrawOp
deriving DecidableEq, Repr

/-- Assigning `canvas.width` / `canvas.height` resizes the canvas and clears
its contents. -/
def resizeCanvas (w h : ℚ) : Canvas :=
  { width := w, height := h, ops := [] }

/-- `ctx.fillStyle = '#334155'` — the placeholder background colour. -/
def bgSlate700 : String := "#334155"

/-- The placeholder caption drawn when no image is loaded. -/
def captionText : String := "Image display area"

/-- `Math.max(200, maxDisplayHeight)` — minimum sensible placeholder height. -/
def placeholderHeight (maxDisplayHeight : ℚ) : ℚ :=
  max 200 maxDisplayHeight

/-- The `drawingPaths.forEach` loop: paths with fewer than two points are
skipped; each remaining path is stroked as a connected polyline. -/
def strokeOpsFor (paths : List Path) : List DrawOp :=
  (paths.filter fun p => decide (2 ≤ p.length)).map DrawOp.strokePolyline

/-- The drawing operations performed after the canvas has been sized and
cleared, with an image present: draw the scaled image at the origin, then all
committed paths, then the current path when drawing and it has more than one
point. -/
def compositeOps (img : Image) (dw dh : ℚ) (drawingPaths : List Path)
    (currentPath : Path) (isDrawing : Bool) : List DrawOp :=
  DrawOp.drawImage img 0 0 dw dh ::
    strokeOpsFor drawingPaths ++
      (if isDrawing = true ∧ 1 < currentPath.length
        then [DrawOp.strokePolyline currentPath] else [])

/-- The draw `useEffect` body.  No image: size the canvas to the placeholder
dimensions when they differ (which clears it), then fill the background and
draw the caption.  Image present: compute scale and display dimensions,
reassign the canvas dimensions when they differ (which clears it) and
otherwise `clearRect` the whole canvas, then draw the composite. -/
def drawEffect (image : Option Image) (drawingPaths : List Path)
    (currentPath : Path) (isDrawing : Bool)
    (maxDisplayWidth maxDisplayHeight : ℚ) (c : Canvas) : Canvas :=
  match image with
  | none =>
    let pw := maxDisplayWidth
    let ph := placeholderHeight maxDisplayHeight
    let c1 := if c.width ≠ pw ∨ c.height ≠ ph then resizeCanvas pw ph else c
    { c1 with ops := c1.ops ++
        [DrawOp.fillRect 0 0 c1.width c1.height bgSlate700,
         DrawOp.fillText captionText (c1.width / 2) (c1.height / 2)] }
  | some img =>
    let scale := computeScale img.naturalWidth img.naturalHeight
      maxDisplayWidth maxDisplayHeight
    let dw := img.naturalWidth * scale
    let dh := img.naturalHeight * scale
    let c1 :=
      if c.width ≠ dw ∨ c.height ≠ dh then resizeCanvas dw dh
      else { c with ops := c.ops ++ [DrawOp.clearRect 0 0 c.width c.height] }
    { c1 with ops := c1.ops ++ compositeOps img dw dh drawingPaths currentPath isDrawing }

/-- Running the draw effect on a session (the effect reads `image`,
`drawingPaths`, `currentPath`, `isDrawing` and the bound props). -/
def drawSession (s : Session) (maxDisplayWidth maxDisplayHeight : ℚ)
    (c : Canvas) : Canvas :=
  drawEffect s.image s.drawingPaths s.currentPath s.isDrawing
    maxDisplayWidth maxDisplayHeight c

/-! #### Pixel semantics

Two op lists are pixel-identical when, replayed over the canvas, they leave
the same visible content.  A `clearRect` covering the whole canvas erases
everything before it; an opaque `fillRect` covering the whole canvas
overwrites everything before it (every fill style the source uses is opaque).
All other operations add content on top. -/

/-- Does this operation cover an entire canvas of dimensions `w × h`
(origin rectangle of the canvas's full dimensions)? -/
def coversDims (w h : ℚ) : DrawOp → Bool
  | DrawOp.clearRect x y rw rh => decide (x = 0 ∧ y = 0 ∧ rw = w ∧ rh = h)
  | DrawOp.fillRect x y rw rh _ => decide (x = 0 ∧ y = 0 ∧ rw = w ∧ rh = h)
  | _ => false

/-- Replay one operation, on a canvas of dimensions `w × h`, over the
accumulated visible content. -/
def applyOp (w h : ℚ) (acc : List DrawOp) (op : DrawOp) : List DrawOp :=
  match op with
  | DrawOp.clearRect _ _ _ _ => if coversDims w h op then [] else acc ++ [op]
  | DrawOp.fillRect _ _ _ _ _ => if coversDims w h op then [op] else acc ++ [op]
  | _ => acc ++ [op]

/-- The visible content of a canvas: its operations replayed from an empty
backing store. -/
def visible (c : Canvas) : List DrawOp :=
  c.ops.foldl (applyOp c.width c.height) []

/-- Two canvases are pixel-identical when they have the same dimensions and
the same visible content. -/
def PixelIdentical (c1 c2 : Canvas) : Prop :=
  c1.width = c2.width ∧ c1.height = c2.height ∧ visible c1 = visible c2

/-! ### ExportService (`getAnnotatedImageDataUrl`) -/

/-- The prefix of every data URL produced by `canvas.toDataURL('image/png')`. -/
def dataUrlPngPrefix : String := "data:image/png;base64,"

/-- Modelled from the browser primitive `canvas.toDataURL('image/png')`: a
PNG data URL is the fixed prefix followed by an encoding of the canvas's
current raster. -/
def toDataURL (c : Canvas) : String :=
  dataUrlPngPrefix ++ reprStr c

/-- `getAnnotatedImageDataUrl`: `null` when the canvas ref or the image is
absent, otherwise the canvas's PNG data URL.  The component renders the
`<canvas>` element unconditionally, so the ref is populated whenever the
imperative handle is reachable; the ref is still modelled as optional to
mirror the source guard. -/
def getAnnotatedImageDataUrl (s : Session) (canvas : Option Canvas) : Option String :=
  match canvas, s.image with
  | none, _ => none
  | some _, none => none
  | some c, some _ => some (toDataURL c)

/-! ### Image-load effect: in-flight completions

The load `useEffect` installs `onload`/`onerror` callbacks on a fresh
`FileReader`/`Image` pair each time `imageFile` changes, and returns no
cleanup: a callback installed for an earlier source still fires when its
decode finishes, and applies its state updates unconditionally — nothing in
the callbacks checks whether the request is still the latest one. -/

/-- The completion of one in-flight decode, as delivered to the callbacks the
effect installed for it. -/
inductive LoadCompletion where
  | success (img : Image)
  | failure
deriving DecidableEq, Repr

/-- Applying one decode completion to the session: exactly the corresponding
callback's state updates, applied regardless of whether the completion belongs
to the most recent request (the source has no staleness guard and no effect
cleanup). -/
def applyLoadCompletion (s : Session) : LoadCompletion → Session
  | LoadCompletion.success img => (imgOnLoad img s).1
  | LoadCompletion.failure => (imgOnError s).session

/-- Replaying a sequence of decode completions in their arrival order. -/
def runLoadCompletions (s : Session) (cs : List LoadCompletion) : Session :=
  cs.foldl applyLoadCompletion s

/-! ### Concrete values used by witnesses and counterexamples -/

/-- A concrete decoded image used in concrete scenarios. -/
def imgA : Image := { id := 1, naturalWidth := 100, naturalHeight := 80 }

/-- A second, distinct concrete decoded image. -/
def imgB : Image := { id := 2, naturalWidth := 60, naturalHeight := 40 }

/-- A concrete session with two committed strokes and a stroke in progress. -/
def midStrokeSession : Session :=
  { image := some imgA
    drawingPaths := [[⟨0, 0⟩, ⟨5, 5⟩], [⟨1, 1⟩, ⟨2, 2⟩]]
    isDrawing := true
    currentPath := [⟨3, 3⟩] }

/-- A concrete drawing session whose active stroke has two points. -/
def twoPointSession : Session :=
  { image := some imgA
    drawingPaths := []
    isDrawing := true
    currentPath := [⟨1, 1⟩, ⟨2, 2⟩] }

/-- A concrete empty canvas of the default bounds. -/
def blankCanvas : Canvas := { width := 800, height := 600, ops := [] }

end AnnotationSurface

namespace AnnotationSurface

/-! ## Theorems for the claims -/

/-- Claim C1: for every image with positive natural width and height and
positive display bounds, the computed scale equals
`min(maxWidth/naturalWidth, maxHeight/naturalHeight, 1.0)` — so it never
exceeds 1 — and the display size equals the natural size multiplied by that
scale; in particular, a 2000×1000 image with bounds 800×600 yields scale 0.4
and display size 800×400. -/
theorem computeScale_spec (nw nh mw mh : ℚ)
    (hnw : 0 < nw) (hnh : 0 < nh) (hmw : 0 < mw) (hmh : 0 < mh) :
    computeScale nw nh mw mh = min (min (mw / nw) (mh / nh)) 1 ∧
    computeScale nw nh mw mh ≤ 1 ∧
    displayWidth nw nh mw mh = nw * computeScale nw nh mw mh ∧
    displayHeight nw nh mw mh = nh * computeScale nw nh mw mh ∧
    computeScale 2000 1000 800 600 = 2 / 5 ∧
    displayWidth 2000 1000 800 600 = 800 ∧
    displayHeight 2000 1000 800 600 = 400 := by
  refine ⟨rfl, min_le_right _ _, rfl, rfl, ?_, ?_, ?_⟩ <;>
    norm_num [computeScale, displayWidth, displayHeight]

/-- Witness for C1 at the 2000×1000 image with 800×600 bounds. -/
theorem computeScale_spec_witness :
    computeScale 2000 1000 800 600 ≤ 1 ∧ displayWidth 2000 1000 800 600 = 800 := by
  have h := computeScale_spec 2000 1000 800 600 (by norm_num) (by norm_num)
    (by norm_num) (by norm_num)
  exact ⟨h.2.1, h.2.2.2.2.2.1⟩

/-- Claim C2: for a pointer-up while drawing with an image present, a
one-point active stroke is discarded (committed strokes unchanged, observer
not notified), an active stroke of ≥ 2 points is appended at the end of the
committed strokes with the observer notified with
`committedStrokes.length > 0` (which is `true`); in all cases the active
stroke is reset to empty and drawing stops; committed strokes of length ≥ 2
are preserved, so every stroke ever appended has length ≥ 2. -/
theorem handleInteractionEnd_commit_guard (s : Session) (img : Image)
    (hD : s.isDrawing = true) (hI : s.image = some img) :
    (s.currentPath.length = 1 →
      (handleInteractionEnd s).1.drawingPaths = s.drawingPaths ∧
      (handleInteractionEnd s).2 = none) ∧
    (2 ≤ s.currentPath.length →
      (handleInteractionEnd s).1.drawingPaths = s.drawingPaths ++ [s.currentPath] ∧
      (handleInteractionEnd s).2 = some true) ∧
    (handleInteractionEnd s).1.currentPath = [] ∧
    (handleInteractionEnd s).1.isDrawing = false ∧
    ((∀ p ∈ s.drawingPaths, 2 ≤ p.length) →
      ∀ p ∈ (handleInteractionEnd s).1.drawingPaths, 2 ≤ p.length) := by
  have hguard : ¬ (s.isDrawing = false ∨ s.image = none) := by simp [hD, hI]
  by_cases hlen : 1 < s.currentPath.length
  · refine ⟨fun h1 => absurd hlen (by omega), ?_, ?_, ?_, ?_⟩
    · intro _
      simp [handleInteractionEnd, hguard, hlen]
    · simp [handleInteractionEnd, hguard, hlen]
    · simp [handleInteractionEnd, hguard, hlen]
    · intro hall p hp
      simp only [handleInteractionEnd, if_neg hguard, if_pos hlen] at hp
      rcases List.mem_append.1 hp with h | h
      · exact hall p h
      · rcases List.mem_singleton.1 h with rfl
        omega
  · refine ⟨?_, fun h2 => absurd h2 (by omega), ?_, ?_, ?_⟩
    · intro _
      simp [handleInteractionEnd, hguard, hlen]
    · simp [handleInteractionEnd, hguard, hlen]
    · simp [handleInteractionEnd, hguard, hlen]
    · intro hall p hp
      simp only [handleInteractionEnd, if_neg hguard, if_neg hlen] at hp
      exact hall p hp

/-- Witness for C2: a two-point gesture commits the stroke and notifies with
`true`; the active stroke is reset. -/
theorem handleInteractionEnd_commit_guard_witness :
    (handleInteractionEnd twoPointSession).1.drawingPaths = [[⟨1, 1⟩, ⟨2, 2⟩]] ∧
    (handleInteractionEnd twoPointSession).2 = some true ∧
    (handleInteractionEnd twoPointSession).1.currentPath = [] := by
  have h := handleInteractionEnd_commit_guard twoPointSession imgA rfl rfl
  have h2 := h.2.1 (by decide)
  exact ⟨by simpa using h2.1, h2.2, h.2.2.1⟩

/-- Counterexample to claim C3 as stated: after a successful decode the active
stroke is not cleared — a session with a one-point stroke in progress keeps
that point after `img.onload` runs for the new image. -/
theorem imgOnLoad_keeps_activeStroke :
    (imgOnLoad imgB midStrokeSession).1.currentPath = [⟨3, 3⟩] ∧
    (imgOnLoad imgB midStrokeSession).1.currentPath ≠ [] := by decide

/-- Claim C3 (amended): whenever a new image source decodes successfully, the
committed strokes become empty and the selection-exists observer is notified
with `false`, for every prior state; the active stroke and the drawing flag
are left unchanged by the load callback itself. -/
theorem imgOnLoad_resets_committed_strokes (img : Image) (s : Session) :
    (imgOnLoad img s).1.image = some img ∧
    (imgOnLoad img s).1.drawingPaths = [] ∧
    (imgOnLoad img s).2 = false ∧
    (imgOnLoad img s).1.currentPath = s.currentPath ∧
    (imgOnLoad img s).1.isDrawing = s.isDrawing :=
  ⟨rfl, rfl, rfl, rfl, rfl⟩

/-- Claim C4: on a decode failure the component emits its decode-error report
(the `console.error` log, its only failure signal), the session's bitmap is
left empty, the committed strokes are cleared and the selection observer is
notified with `false` — for every prior session state. -/
theorem imgOnError_reports_and_clears (s : Session) :
    (imgOnError s).errorReport = decodeErrorMessage ∧
    (imgOnError s).session.image = none ∧
    (imgOnError s).session.drawingPaths = [] ∧
    (imgOnError s).selectionNotified = false :=
  ⟨rfl, rfl, rfl, rfl⟩

/-- Claim C6: invoking `clearSelection` from any prior state leaves no
committed strokes, no active stroke, the recorder not drawing, and notifies
the selection observer with `false`. -/
theorem clearSelection_resets (s : Session) :
    (clearSelection s).1.drawingPaths = [] ∧
    (clearSelection s).1.currentPath = [] ∧
    (clearSelection s).1.isDrawing = false ∧
    (clearSelection s).2 = false :=
  ⟨rfl, rfl, rfl, rfl⟩

/-- Claim C7: the load effect installs completion callbacks with no staleness
guard, so a stale completion from a superseded request is applied rather than
ignored.  Concretely: requests for sources A then B are issued; B's decode
completes first, then A's stale completion arrives; the final session shows
image A, not the most recently requested B. -/
theorem stale_completion_overwrites_latest :
    runLoadCompletions initialSession
        [LoadCompletion.success imgB, LoadCompletion.success imgA] =
      { image := some imgA, drawingPaths := [], isDrawing := false,
        currentPath := [] } ∧
    imgA ≠ imgB := by decide

/-- Claim C9: with a bitmap loaded, `clearSelection` leaves the bitmap — and
therefore the derived display scale for any bounds — unchanged, while clearing
only the stroke state. -/
theorem clearSelection_preserves_image (s : Session) (img : Image)
    (h : s.image = some img) :
    (clearSelection s).1.image = some img ∧
    (∀ mw mh : ℚ, sessionScale (clearSelection s).1 mw mh = sessionScale s mw mh) ∧
    (clearSelection s).1.drawingPaths = [] ∧
    (clearSelection s).1.currentPath = [] ∧
    (clearSelection s).1.isDrawing = false := by
  exact ⟨by simpa [clearSelection] using h, fun mw mh => rfl, rfl, rfl, rfl⟩

/-- Witness for C9 at a concrete session with a bitmap and strokes. -/
theorem clearSelection_preserves_image_witness :
    (clearSelection midStrokeSession).1.image = some imgA ∧
    (clearSelection midStrokeSession).1.drawingPaths = [] := by
  have h := clearSelection_preserves_image midStrokeSession imgA rfl
  exact ⟨h.1, h.2.2.1⟩

/-- Claim C10: a pointer-down received while a stroke is already in progress
(image present, primary contact) silently discards the in-progress stroke's
accumulated points — the committed strokes are unchanged, so they are never
committed — and starts a fresh active stroke containing only the new point. -/
theorem pointerDown_while_drawing_restarts (s : Session) (img : Image)
    (isMouseEvent : Bool) (button : Nat) (pos : Point)
    (hI : s.image = some img) (hD : s.isDrawing = true)
    (hbtn : isMouseEvent = false ∨ button = 0) :
    handleInteractionStart s isMouseEvent button pos =
      { s with isDrawing := true, currentPath := [pos] } ∧
    (handleInteractionStart s isMouseEvent button pos).drawingPaths =
      s.drawingPaths ∧
    (handleInteractionStart s isMouseEvent button pos).currentPath = [pos] := by
  have hguard : ¬ (s.image = none ∨ (isMouseEvent = true ∧ button ≠ 0)) := by
    rcases hbtn with h | h <;> simp [hI, h]
  refine ⟨?_, ?_, ?_⟩ <;> simp [handleInteractionStart, hguard]

/-- Witness for C10: a mid-stroke session receives a fresh primary-button
pointer-down; the old point is discarded and the new stroke holds only the new
point. -/
theorem pointerDown_while_drawing_restarts_witness :
    (handleInteractionStart midStrokeSession false 0 ⟨7, 7⟩).currentPath = [⟨7, 7⟩] ∧
    (handleInteractionStart midStrokeSession false 0 ⟨7, 7⟩).drawingPaths =
      midStrokeSession.drawingPaths := by
  have h := pointerDown_while_drawing_restarts midStrokeSession imgA false 0 ⟨7, 7⟩
    rfl rfl (Or.inl rfl)
  exact ⟨h.2.2, h.2.1⟩

/-- A PNG data URL is never the empty string: it starts with the fixed
non-empty prefix. -/
theorem toDataURL_ne_empty (c : Canvas) : toDataURL c ≠ "" := by
  intro h
  have hlen := congrArg String.length h
  rw [toDataURL, String.length_append] at hlen
  have hpre : dataUrlPngPrefix.length = 22 := rfl
  rw [hpre, String.length_empty] at hlen
  omega

/-- Claim C5: with the canvas element mounted, `getAnnotatedImageDataUrl`
returns `null` if and only if no bitmap is loaded; whenever a bitmap is loaded
it returns the canvas's PNG data URL — a non-empty encoding of the last
rendered raster. -/
theorem getAnnotatedImage_empty_iff_no_bitmap (s : Session) (c : Canvas)
    (canvasRef : Option Canvas) (hc : canvasRef = some c) :
    (getAnnotatedImageDataUrl s canvasRef = none ↔ s.image = none) ∧
    (∀ img, s.image = some img →
      getAnnotatedImageDataUrl s canvasRef = some (toDataURL c) ∧
      toDataURL c ≠ "") := by
  subst hc
  cases h : s.image with
  | none => simp [getAnnotatedImageDataUrl, h]
  | some img => simp [getAnnotatedImageDataUrl, h, toDataURL_ne_empty]

/-- Witness for C5: a session with a loaded bitmap and a mounted canvas
exports that canvas's data URL. -/
theorem getAnnotatedImage_empty_iff_no_bitmap_witness :
    getAnnotatedImageDataUrl midStrokeSession (some blankCanvas) =
      some (toDataURL blankCanvas) := by
  have h := getAnnotatedImage_empty_iff_no_bitmap midStrokeSession blankCanvas
    (some blankCanvas) rfl
  exact (h.2 imgA rfl).1

end AnnotationSurface

namespace AnnotationSurface

/-- The display width the draw effect establishes for the given image and
bounds (placeholder width when no image is present). -/
def targetWidth (image : Option Image) (mw mh : ℚ) : ℚ :=
  match image with
  | none => mw
  | some img => displayWidth img.naturalWidth img.naturalHeight mw mh

/-- The display height the draw effect establishes for the given image and
bounds (placeholder height when no image is present). -/
def targetHeight (image : Option Image) (mw mh : ℚ) : ℚ :=
  match image with
  | none => placeholderHeight mh
  | some img => displayHeight img.naturalWidth img.naturalHeight mw mh

/-- The visible scene the draw effect leaves on the canvas: the placeholder
background and caption without an image, the composite otherwise. -/
def sceneOps (image : Option Image) (dp : List Path) (cp : Path) (d : Bool)
    (mw mh : ℚ) : List DrawOp :=
  match image with
  | none =>
      [DrawOp.fillRect 0 0 mw (placeholderHeight mh) bgSlate700,
       DrawOp.fillText captionText (mw / 2) (placeholderHeight mh / 2)]
  | some img =>
      compositeOps img (displayWidth img.naturalWidth img.naturalHeight mw mh)
        (displayHeight img.naturalWidth img.naturalHeight mw mh) dp cp d

/-- Replaying a list of purely content-adding operations appends them to the
accumulated content. -/
theorem foldl_applyOp_append_only (w h : ℚ) :
    ∀ (l acc : List DrawOp),
      (∀ op ∈ l, ∀ a, applyOp w h a op = a ++ [op]) →
      List.foldl (applyOp w h) acc l = acc ++ l := by
  intro l
  induction l with
  | nil => intro acc _; simp
  | cons a t ih =>
    intro acc hyp
    rw [List.foldl_cons, hyp a (List.mem_cons_self a t),
      ih (acc ++ [a]) fun op hop b => hyp op (List.mem_cons_of_mem a hop) b]
    simp

/-- Every operation of the composite scene (image draw and polyline strokes)
only adds content. -/
theorem compositeOps_append_only (w h : ℚ) (img : Image) (dw dh : ℚ)
    (dp : List Path) (cp : Path) (d : Bool) :
    ∀ op ∈ compositeOps img dw dh dp cp d, ∀ a, applyOp w h a op = a ++ [op] := by
  intro op hop a
  rcases List.mem_cons.1 hop with rfl | hmem
  · rfl
  · rcases List.mem_append.1 hmem with h2 | h2
    · rcases List.mem_map.1 h2 with ⟨p, _, rfl⟩
      rfl
    · by_cases hd : d = true ∧ 1 < cp.length
      · rw [if_pos hd] at h2
        rcases List.mem_singleton.1 h2 with rfl
        rfl
      · rw [if_neg hd] at h2
        exact absurd h2 (List.not_mem_nil op)

/-- A full-canvas opaque fill overwrites everything replayed before it. -/
theorem foldl_full_fill (w h : ℚ) (pre : List DrawOp) (st t : String) (x y : ℚ) :
    List.foldl (applyOp w h) []
        (pre ++ [DrawOp.fillRect 0 0 w h st, DrawOp.fillText t x y]) =
      [DrawOp.fillRect 0 0 w h st, DrawOp.fillText t x y] := by
  rw [List.foldl_append, List.foldl_cons, List.foldl_cons, List.foldl_nil]
  have h1 : applyOp w h (List.foldl (applyOp w h) [] pre)
      (DrawOp.fillRect 0 0 w h st) = [DrawOp.fillRect 0 0 w h st] := by
    simp [applyOp, coversDims]
  rw [h1]
  rfl

/-- A full-canvas `clearRect` erases everything replayed before it;
content-adding operations after it show as written. -/
theorem foldl_clear_then (w h : ℚ) (pre rest : List DrawOp)
    (hrest : ∀ op ∈ rest, ∀ a, applyOp w h a op = a ++ [op]) :
    List.foldl (applyOp w h) [] (pre ++ DrawOp.clearRect 0 0 w h :: rest) = rest := by
  rw [List.foldl_append, List.foldl_cons]
  have h1 : applyOp w h (List.foldl (applyOp w h) [] pre)
      (DrawOp.clearRect 0 0 w h) = [] := by
    simp [applyOp, coversDims]
  rw [h1, foldl_applyOp_append_only w h rest [] hrest]
  simp

/-- The draw effect always leaves the canvas at the target dimensions showing
exactly the scene determined by its inputs, whatever the canvas held before. -/
theorem drawEffect_spec (image : Option Image) (dp : List Path) (cp : Path)
    (d : Bool) (mw mh : ℚ) (c : Canvas) :
    (drawEffect image dp cp d mw mh c).width = targetWidth image mw mh ∧
    (drawEffect image dp cp d mw mh c).height = targetHeight image mw mh ∧
    visible (drawEffect image dp cp d mw mh c) = sceneOps image dp cp d mw mh := by
  cases image with
  | none =>
    simp only [drawEffect]
    split_ifs with hcond
    · refine ⟨rfl, rfl, ?_⟩
      simp [visible, resizeCanvas, applyOp, coversDims, sceneOps]
    · push_neg at hcond
      refine ⟨hcond.1, hcond.2, ?_⟩
      simp only [visible]
      rw [foldl_full_fill]
      rw [hcond.1, hcond.2]
      simp [sceneOps]
  | some img =>
    simp only [drawEffect]
    split_ifs with hcond
    · refine ⟨rfl, rfl, ?_⟩
      simp only [visible, resizeCanvas, List.nil_append]
      rw [foldl_applyOp_append_only _ _ _ _
        (compositeOps_append_only _ _ _ _ _ _ _ _)]
      simp [sceneOps, displayWidth, displayHeight]
    · push_neg at hcond
      refine ⟨?_, ?_, ?_⟩
      · rw [hcond.1]
        rfl
      · rw [hcond.2]
        rfl
      · simp only [visible, List.append_assoc, List.singleton_append]
        rw [foldl_clear_then _ _ _ _
          (compositeOps_append_only _ _ _ _ _ _ _ _)]
        simp [sceneOps, displayWidth, displayHeight]

/-- Claim C8: the renderer is idempotent — running the draw effect twice with
the same inputs leaves the canvas pixel-identical to running it once. -/
theorem drawEffect_idempotent (image : Option Image) (dp : List Path)
    (cp : Path) (d : Bool) (mw mh : ℚ) (c : Canvas) :
    PixelIdentical
      (drawEffect image dp cp d mw mh (drawEffect image dp cp d mw mh c))
      (drawEffect image dp cp d mw mh c) := by
  have h1 := drawEffect_spec image dp cp d mw mh c
  have h2 := drawEffect_spec image dp cp d mw mh (drawEffect image dp cp d mw mh c)
  exact ⟨h2.1.trans h1.1.symm, h2.2.1.trans h1.2.1.symm, h2.2.2.trans h1.2.2.symm⟩

end AnnotationSurface
